import Mathlib

/-!
Verification of the browser-actogram epoch reconciliation engine.

The definitions below are a shallow embedding of the background service worker
(`src/unnamed/part_002`), the activity-data merge of the storage manager
(`src/unnamed/part_003`), and the worker health check (`src/worker-health.js`).
Timestamps are modelled as `Int` milliseconds (JS `Date.now()` values, with
clock anomalies allowed), second counters as `Nat`, and the asynchronous store
calls as an explicit list of emitted `StoreOp` operations.
-/

namespace Actogram

/-- Ternary busy/idle state reported by the idle source (`chrome.idle`). -/
inductive IdleState where
  | active
  | idle
  | locked
deriving DecidableEq, Repr

/-- `trackingState` (lines 12-16): persisted activity-tracking state. -/
structure TrackingState where
  isTracking : Bool
  lastCheckTime : Int
  lastState : IdleState
deriving DecidableEq, Repr

/-- `currentEpoch` (lines 18-23): the open epoch accumulator. `startTime = none`
models the `null` start time; counters are whole seconds; `epochDuration` is in
minutes. -/
structure EpochAccumulator where
  startTime : Option Int
  activeSeconds : Nat
  totalSeconds : Nat
  epochDuration : Nat
deriving DecidableEq, Repr

/-- A record passed to `StorageManager.saveActivityEpoch`: either a scored epoch
or a gap sentinel with `activityScore = -1`. Real (non-gap) records omit the
`isGap` field, modelled here as `isGap = false`. -/
structure FinalizedEpoch where
  timestamp : Int
  activityScore : Int
  epochDuration : Nat
  isGap : Bool
deriving DecidableEq, Repr

/-- In-memory state owned by the reconciliation engine. -/
structure EngineState where
  tracking : TrackingState
  epoch : EpochAccumulator
deriving DecidableEq, Repr

/-- Store operations issued by the engine during a reconciliation, in program
order. `setHeartbeat` models the `chrome.storage.local` write of
`lastHeartbeat`. -/
inductive StoreOp where
  | saveTrackingState (t : TrackingState)
  | saveCurrentEpoch (e : EpochAccumulator)
  | saveActivityEpoch (f : FinalizedEpoch)
  | setHeartbeat (t : Int)
deriving DecidableEq, Repr

/-- `Math.floor (x / d)` on an integer numerator and a positive denominator. -/
def jsFloorDiv (x d : Int) : Int := Int.fdiv x d

/-- `Math.round (p / q)` for a non-negative rational `p / q`: JS rounds halves
up, so this is `⌊p / q + 1 / 2⌋ = ⌊(2 p + q) / (2 q)⌋`. Used to model the gap
duration `Math.round((endTime - startTime) / 60000)`, where the double
computation is exact at every rounding boundary (half-minute marks of a
millisecond count are exactly representable doubles, well below `2^53`). -/
def jsRoundDiv (p q : Nat) : Nat := (2 * p + q) / (2 * q)

/-- Fuel-driven binary logarithm: `log2Fuel fuel n = ⌊log2 n⌋` whenever
`fuel ≥ ⌊log2 n⌋` (in particular for `fuel = n`). Structural recursion on the
fuel keeps it kernel-computable. -/
def log2Fuel : Nat → Nat → Nat
  | 0, _ => 0
  | fuel + 1, n => if n ≤ 1 then 0 else log2Fuel fuel (n / 2) + 1

/-- `⌊log2 n⌋` for `n ≥ 1` (and 0 at 0). -/
def natLog2 (n : Nat) : Nat := log2Fuel n n

/-- Round the rational `p / q` (with `q > 0`) to the nearest integer, ties to
even — the IEEE-754 default rounding used by every double operation. -/
def rne (p q : Nat) : Nat :=
  let n0 := p / q
  let r := p % q
  if 2 * r < q then n0
  else if q < 2 * r then n0 + 1
  else if n0 % 2 = 0 then n0 else n0 + 1

/-- `⌊log2 (a / t)⌋` of the exact rational `a / t`, for `a, t ≥ 1`: scale `a`
by `2^K` with `2^K > t`, so the Nat quotient keeps the leading binary digit of
the rational quotient, and shift the logarithm back. -/
def qfloorLog2 (a t : Nat) : Int :=
  let K := natLog2 t + 1
  (natLog2 (a * 2 ^ K / t) : Int) - K

/-- `Math.round((a / t) * 100)` computed the way the source computes it, in
IEEE-754 double arithmetic, for counters `0 ≤ a ≤ t` (second counts are far
below `2^53` in any real run, so `a` and `t` are themselves exact doubles).
The quotient `a / t` is correctly rounded to 53 significant bits (nearest,
ties to even): its double is `n1 / 2^e1` with mantissa `n1 = rne (a·2^e1) t`
scaled into `[2^52, 2^53]` by the exponent `e1 = 52 - ⌊log2 (a/t)⌋`. The
product with 100 is rounded the same way to `n2 / 2^e2`. `Math.round` then
returns the integer closest to that exact value, halves toward `+∞`:
`⌊n2 / 2^e2 + 1/2⌋ = (2·n2 + 2^e2) / 2^(e2+1)`. -/
def jsActivityScore (a t : Nat) : Nat :=
  if a = 0 ∨ t = 0 then 0
  else
    let e1 := (52 - qfloorLog2 a t).toNat
    let n1 := rne (a * 2 ^ e1) t
    let e2 := (52 - qfloorLog2 (n1 * 100) (2 ^ e1)).toNat
    let n2 := rne (n1 * 100 * 2 ^ e2) (2 ^ e1)
    (2 * n2 + 2 ^ e2) / 2 ^ (e2 + 1)

/-- `Math.max(0, Math.floor((now - lastCheckTime) / 1000))` (line 163). -/
def timeDeltaSeconds (now last : Int) : Nat :=
  (max 0 (jsFloorDiv (now - last) 1000)).toNat

/-- `startNewEpoch` (lines 98-105): fresh accumulator keeping the configured
duration, with the `|| 15` fallback for a missing/zero duration. -/
def startNewEpoch (now : Int) (prevDuration : Nat) : EpochAccumulator :=
  { startTime := some now
    activeSeconds := 0
    totalSeconds := 0
    epochDuration := if prevDuration = 0 then 15 else prevDuration }

/-- `finalizeEpoch` (lines 346-388): guard unstarted/empty accumulators (reset
without emitting a record), otherwise clamp `activeSeconds`, compute the
bounded activity score — `Math.round((active / total) * 100)` in doubles,
modelled by `jsActivityScore` — persist the record and reset the accumulator. -/
def finalizeEpoch (now : Int) (e : EpochAccumulator) : EpochAccumulator × List StoreOp :=
  match e.startTime with
  | none =>
      let fresh := startNewEpoch now e.epochDuration
      (fresh, [StoreOp.saveCurrentEpoch fresh])
  | some st =>
      if e.totalSeconds = 0 then
        let fresh := startNewEpoch now e.epochDuration
        (fresh, [StoreOp.saveCurrentEpoch fresh])
      else
        let active := min e.activeSeconds e.totalSeconds
        let score : Int :=
          max 0 (min 100 ((jsActivityScore active e.totalSeconds : Nat) : Int))
        let fresh := startNewEpoch now e.epochDuration
        (fresh,
         [StoreOp.saveActivityEpoch
            { timestamp := st
              activityScore := score
              epochDuration := e.epochDuration
              isGap := false },
          StoreOp.saveCurrentEpoch fresh])

/-- Lines 162-184 of `updateActivity`: compute the clamped whole-second delta,
create the accumulator if absent, add the delta to `totalSeconds`, add it to
`activeSeconds` when the recorded state is `active` (capping at
`totalSeconds`), and advance `lastCheckTime`. -/
def accumulateStep (now : Int) (s : EngineState) : EngineState :=
  let delta := timeDeltaSeconds now s.tracking.lastCheckTime
  let epoch0 :=
    match s.epoch.startTime with
    | none => startNewEpoch now s.epoch.epochDuration
    | some _ => s.epoch
  let total := epoch0.totalSeconds + delta
  let active :=
    if s.tracking.lastState = IdleState.active then
      if total < epoch0.activeSeconds + delta then total else epoch0.activeSeconds + delta
    else epoch0.activeSeconds
  { tracking := { s.tracking with lastCheckTime := now }
    epoch := { epoch0 with totalSeconds := total, activeSeconds := active } }

/-- `updateActivity` (lines 159-203): the trusted "normal path" reconciliation.
Returns the new engine state and the store operations issued. -/
def updateActivity (now : Int) (s : EngineState) : EngineState × List StoreOp :=
  let delta := timeDeltaSeconds now s.tracking.lastCheckTime
  let s1 := accumulateStep now s
  let ops1 :=
    if 30 ≤ delta ∨ s1.epoch.totalSeconds % 30 = 0 ∨ s1.epoch.activeSeconds % 30 = 0 then
      [StoreOp.saveTrackingState s1.tracking]
    else []
  match s1.epoch.startTime with
  | none => (s1, ops1 ++ [StoreOp.saveCurrentEpoch s1.epoch])
  | some st =>
      if (s1.epoch.epochDuration : Int) * 60000 ≤ now - st then
        let fe := finalizeEpoch now s1.epoch
        ({ s1 with epoch := fe.1 }, ops1 ++ fe.2)
      else
        (s1, ops1 ++ [StoreOp.saveCurrentEpoch s1.epoch])

/-- `MAX_TRUSTED_GAP_MS` (line 301). -/
def MAX_TRUSTED_GAP_MS : Int := 120000

/-- `createGapEpoch` (lines 323-341): the gap record persisted for untrusted
elapsed intervals. -/
def createGapEpoch (startTime endTime : Int) : FinalizedEpoch :=
  { timestamp := startTime
    activityScore := -1
    epochDuration := max 1 (jsRoundDiv (endTime - startTime).toNat 60000)
    isGap := true }

/-- `updateActivityWithCheckpoint` (lines 294-318). `fresh` is the answer of the
`getBrowserState()` query performed on the gap path. -/
def updateActivityWithCheckpoint (now : Int) (s : EngineState) (fresh : IdleState) :
    EngineState × List StoreOp :=
  let elapsedMs := now - s.tracking.lastCheckTime
  if MAX_TRUSTED_GAP_MS < elapsedMs then
    let t1 := { s.tracking with lastState := fresh, lastCheckTime := now }
    ({ s with tracking := t1 },
     [StoreOp.saveActivityEpoch (createGapEpoch s.tracking.lastCheckTime now),
      StoreOp.saveTrackingState t1])
  else
    updateActivity now s

/-- `handleIdleStateChange` (lines 241-251): reconcile under the old state, then
switch `lastState` to the notified new state. -/
def handleIdleStateChange (now : Int) (s : EngineState) (fresh newState : IdleState) :
    EngineState × List StoreOp :=
  let r := updateActivityWithCheckpoint now s fresh
  let t2 := { r.1.tracking with lastState := newState }
  ({ r.1 with tracking := t2 }, r.2 ++ [StoreOp.saveTrackingState t2])

/-- `checkIdleState` (lines 208-236): the heartbeat handler. `queried` is the
result of the `chrome.idle.queryState` call made after the update; the handler
finishes by writing the `lastHeartbeat` liveness timestamp. -/
def checkIdleState (now : Int) (s : EngineState) (fresh queried : IdleState) :
    EngineState × List StoreOp :=
  let r := updateActivityWithCheckpoint now s fresh
  let r2 :=
    if queried ≠ r.1.tracking.lastState then
      let t2 := { r.1.tracking with lastState := queried }
      (({ r.1 with tracking := t2 } : EngineState), [StoreOp.saveTrackingState t2])
    else (r.1, ([] : List StoreOp))
  (r2.1, r.2 ++ r2.2 ++ [StoreOp.setHeartbeat now])

/-- A reconciliation trigger: a heartbeat tick or an idle-state change, carrying
the wall-clock time and the idle-source answers at that moment. -/
inductive Trigger where
  | tick (now : Int) (fresh queried : IdleState)
  | stateChange (now : Int) (fresh newState : IdleState)
deriving DecidableEq, Repr

/-- Dispatch one trigger to its handler (lines 431-441 and 131-132). -/
def reconcile (s : EngineState) : Trigger → EngineState × List StoreOp
  | Trigger.tick now fresh queried => checkIdleState now s fresh queried
  | Trigger.stateChange now fresh newState => handleIdleStateChange now s fresh newState

/-- Run a sequence of reconciliation triggers, keeping only the engine state. -/
def runTriggers (s : EngineState) (ts : List Trigger) : EngineState :=
  ts.foldl (fun acc t => (reconcile acc t).1) s

/-- Run a sequence of reconciliation triggers, collecting all store operations. -/
def runCollect (s : EngineState) (ts : List Trigger) : EngineState × List StoreOp :=
  ts.foldl (fun acc t => ((reconcile acc.1 t).1, acc.2 ++ (reconcile acc.1 t).2)) (s, [])

/-- The activity records among a list of emitted store operations. -/
def activityRecords (ops : List StoreOp) : List FinalizedEpoch :=
  ops.filterMap fun op =>
    match op with
    | StoreOp.saveActivityEpoch f => some f
    | _ => none

/-- `checkWorkerHealth` (src/worker-health.js lines 10-27). `stored` models the
`lastHeartbeat` key of `chrome.storage.local` (`none` when absent); JS
truthiness makes a stored `0` behave like an absent value. -/
def checkWorkerHealth (now : Int) (stored : Option Int) : Bool :=
  match stored with
  | none => false
  | some t => if t ≠ 0 ∧ now - t ≤ 180000 then true else false

/-- `chrome.alarms.create`: alarms are keyed by name, so re-creating an existing
alarm replaces it in place rather than adding a duplicate registration. -/
def alarmsCreate (alarms : List String) (name : String) : List String :=
  if name ∈ alarms then alarms else alarms ++ [name]

/-- `ensureAlarms` (lines 256-274): create each of the three alarms only when it
is missing. (The source tests membership in the name list fetched up front; as
the three names are distinct this equals testing the evolving list.) -/
def ensureAlarms (alarms : List String) : List String :=
  let a1 := if "activityHeartbeat" ∈ alarms then alarms else alarmsCreate alarms "activityHeartbeat"
  let a2 := if "cleanup" ∈ a1 then a1 else alarmsCreate a1 "cleanup"
  if "sleepAnalysis" ∈ a2 then a2 else alarmsCreate a2 "sleepAnalysis"

/-- State of the initialization guard (lines 25-29) together with the observable
effects of the initialization body: the alarm registry and a count of how many
times an `EpochAccumulator` was restored or newly created (lines 62-69). -/
structure InitState where
  isInitialized : Bool
  isInitializing : Bool
  hasPromise : Bool
  restarts : Nat
  alarms : List String
  accumCreations : Nat
deriving DecidableEq, Repr

/-- Events of the initialization state machine: a call to `initialize` (its
synchronous prefix, lines 36-44) and the completion of the in-flight attempt
body, successful (lines 45-79, which runs `startTracking`'s alarm creation and
`ensureAlarms` and keeps the settled promise in place) or failed (lines 80-89,
which resets all three flags). Completions only apply while an attempt is in
flight. -/
inductive InitEvent where
  | call
  | succeed
  | fail
deriving DecidableEq, Repr

/-- One step of the initialization state machine. -/
def initStep (s : InitState) : InitEvent → InitState
  | InitEvent.call =>
      if s.isInitialized then s
      else if s.hasPromise then s
      else { s with isInitializing := true, hasPromise := true, restarts := s.restarts + 1 }
  | InitEvent.succeed =>
      if s.hasPromise && !s.isInitialized then
        { s with
            isInitialized := true
            isInitializing := false
            alarms := ensureAlarms (alarmsCreate s.alarms "activityHeartbeat")
            accumCreations := s.accumCreations + 1 }
      else s
  | InitEvent.fail =>
      if s.hasPromise && !s.isInitialized then
        { s with isInitialized := false, isInitializing := false, hasPromise := false }
      else s

/-- The state of a freshly loaded service worker (lines 25-29): nothing
initialized, no alarms, no accumulator yet. -/
def freshInit : InitState :=
  { isInitialized := false
    isInitializing := false
    hasPromise := false
    restarts := 0
    alarms := []
    accumCreations := 0 }

/-- Run a sequence of initialization events. -/
def runInit (s : InitState) (es : List InitEvent) : InitState := es.foldl initStep s

/-- States of the initialization machine reachable from the fresh worker. -/
inductive InitReachable : InitState → Prop where
  | start : InitReachable freshInit
  | step : ∀ {s : InitState} (e : InitEvent), InitReachable s → InitReachable (initStep s e)

/-- The `findIndex`-and-replace step of `_mergeActivityData` (part_003 lines
306-310): replace the first record carrying the imported record's timestamp when
the import has the strictly higher score; with no match the list is unchanged
(in JS the `merged[-1]` comparison is falsy). -/
def replaceIfHigher : List FinalizedEpoch → FinalizedEpoch → List FinalizedEpoch
  | [], _ => []
  | x :: xs, e =>
      if x.timestamp = e.timestamp then
        (if x.activityScore < e.activityScore then e else x) :: xs
      else x :: replaceIfHigher xs e

/-- The loop of `_mergeActivityData` over `imported` (part_003 lines 301-311);
`ets` is the timestamp set computed once from `existing` and never extended. -/
def mergeLoop : List FinalizedEpoch → List Int → List FinalizedEpoch → List FinalizedEpoch
  | merged, _, [] => merged
  | merged, ets, e :: rest =>
      if e.timestamp ∈ ets then mergeLoop (replaceIfHigher merged e) ets rest
      else mergeLoop (merged ++ [e]) ets rest

/-- The ordering used by the final `merged.sort((a, b) => a.timestamp - b.timestamp)`. -/
def tsLE (a b : FinalizedEpoch) : Prop := a.timestamp ≤ b.timestamp

instance : DecidableRel tsLE :=
  fun a b => inferInstanceAs (Decidable (a.timestamp ≤ b.timestamp))

instance : IsTotal FinalizedEpoch tsLE :=
  ⟨fun a b => Int.le_total a.timestamp b.timestamp⟩

instance : IsTrans FinalizedEpoch tsLE :=
  ⟨fun _ _ _ h1 h2 => le_trans h1 h2⟩

/-- `_mergeActivityData` (src/unnamed/part_003 lines 297-318): copy `existing`,
fold `imported` through push-or-replace keyed on `existing`'s timestamps, then
sort ascending by timestamp. `Array.prototype.sort` with this comparator yields
a stably sorted array, modelled by insertion sort. -/
def mergeActivityData (existing imported : List FinalizedEpoch) : List FinalizedEpoch :=
  List.insertionSort tsLE (mergeLoop existing (existing.map fun r => r.timestamp) imported)

/-! ## Helper lemmas -/

/-- `Math.max(0, Math.floor(x / 1000))` agrees with truncating the negative part
and using `Int./` (Euclidean division, which floors for a positive divisor). -/
lemma timeDeltaSeconds_eq (now last : Int) :
    timeDeltaSeconds now last = (max 0 ((now - last) / 1000)).toNat := by
  unfold timeDeltaSeconds jsFloorDiv
  rw [Int.fdiv_eq_ediv _ (by norm_num)]

/-- The accumulator returned by `finalizeEpoch` is always a fresh one. -/
lemma finalizeEpoch_fst (now : Int) (e : EpochAccumulator) :
    (finalizeEpoch now e).1 = startNewEpoch now e.epochDuration := by
  unfold finalizeEpoch
  cases e.startTime with
  | none => rfl
  | some st =>
      dsimp only
      split <;> rfl

/-- `finalizeEpoch` never writes the tracking state. -/
lemma saveTrackingState_not_mem_finalizeEpoch (now : Int) (e : EpochAccumulator)
    (t : TrackingState) : StoreOp.saveTrackingState t ∉ (finalizeEpoch now e).2 := by
  unfold finalizeEpoch
  cases e.startTime with
  | none => simp
  | some st =>
      dsimp only
      split <;> simp

/-! ## C1: gap handling -/

/-- **C1.** Whenever the elapsed time `now - lastCheckTime` exceeds
`MAX_TRUSTED_GAP_MS = 120000`, the reconciliation persists exactly one gap
record — timestamp the previous `lastCheckTime`, sentinel score `-1`,
`isGap = true`, duration `max 1 (round (elapsedMs / 60000))` minutes — leaves
the open accumulator untouched, refreshes `lastState` from the fresh idle
query, sets `lastCheckTime := now`, and does not run the normal accumulation
path (no accumulator write is emitted). -/
theorem gap_reconciliation (s : EngineState) (now : Int) (fresh : IdleState)
    (h : MAX_TRUSTED_GAP_MS < now - s.tracking.lastCheckTime) :
    updateActivityWithCheckpoint now s fresh =
      ({ s with tracking :=
            { s.tracking with lastState := fresh, lastCheckTime := now } },
       [StoreOp.saveActivityEpoch
          { timestamp := s.tracking.lastCheckTime
            activityScore := -1
            epochDuration := max 1 (jsRoundDiv (now - s.tracking.lastCheckTime).toNat 60000)
            isGap := true },
        StoreOp.saveTrackingState
          { s.tracking with lastState := fresh, lastCheckTime := now }]) := by
  unfold updateActivityWithCheckpoint createGapEpoch
  rw [if_pos h]

/-- Witness for `gap_reconciliation` at a concrete five-minute gap. -/
theorem gap_reconciliation_witness :
    (MAX_TRUSTED_GAP_MS <
        (900000 : Int) -
          ({ tracking := { isTracking := true, lastCheckTime := 600000, lastState := IdleState.active }
             epoch := { startTime := some 0, activeSeconds := 600, totalSeconds := 600,
                        epochDuration := 15 } } : EngineState).tracking.lastCheckTime)
    ∧ updateActivityWithCheckpoint 900000
        { tracking := { isTracking := true, lastCheckTime := 600000, lastState := IdleState.active }
          epoch := { startTime := some 0, activeSeconds := 600, totalSeconds := 600,
                     epochDuration := 15 } } IdleState.idle =
      ({ tracking := { isTracking := true, lastCheckTime := 900000, lastState := IdleState.idle }
         epoch := { startTime := some 0, activeSeconds := 600, totalSeconds := 600,
                    epochDuration := 15 } },
       [StoreOp.saveActivityEpoch
          { timestamp := 600000, activityScore := -1, epochDuration := 5, isGap := true },
        StoreOp.saveTrackingState
          { isTracking := true, lastCheckTime := 900000, lastState := IdleState.idle }]) :=
  ⟨by decide,
   gap_reconciliation
     { tracking := { isTracking := true, lastCheckTime := 600000, lastState := IdleState.active }
       epoch := { startTime := some 0, activeSeconds := 600, totalSeconds := 600,
                  epochDuration := 15 } } 900000 IdleState.idle (by decide)⟩

/-! ## C4: finalization -/

/-- **C4 counterexample.** At the accumulator (startTime 0, activeSeconds 23,
totalSeconds 40) the source computes `(23/40) * 100` in doubles: `23/40`
rounds to `0.57499999999999995559…`, the product rounds to
`57.49999999999999289…`, so `Math.round` gives 57 and the persisted record has
`activityScore = 57` — while the claim's exact-rational
`clamp (round (23/40 · 100)) 0 100` is `round 57.5 = 58`. -/
theorem finalize_epoch_exact_round_counterexample :
    activityRecords (finalizeEpoch 0
        { startTime := some 0, activeSeconds := 23, totalSeconds := 40,
          epochDuration := 15 }).2
      = [{ timestamp := 0, activityScore := 57, epochDuration := 15, isGap := false }]
    ∧ max 0 (min 100 ((jsRoundDiv (min 23 40 * 100) 40 : Nat) : Int)) = 58
    ∧ (57 : Int) ≠ 58 :=
  ⟨rfl, by decide, by decide⟩

/-- **C4 (amended).** Finalization: with an unset start time or
`totalSeconds = 0`, no record is produced and a fresh accumulator is started;
otherwise the persisted record carries the accumulator's start time and the
score `clamp (Math.round ((min activeSeconds totalSeconds / totalSeconds) * 100)) 0 100`
with the round computed in IEEE-754 double arithmetic as the source does
(`jsActivityScore`), which lies in `[0, 100]`; in both cases the accumulator is
reset to a fresh one with `activeSeconds = 0` and `totalSeconds = 0`. -/
theorem finalize_epoch_double_rounding (now : Int) (e : EpochAccumulator) :
    ((e.startTime = none ∨ e.totalSeconds = 0) →
      finalizeEpoch now e =
        (startNewEpoch now e.epochDuration,
         [StoreOp.saveCurrentEpoch (startNewEpoch now e.epochDuration)]))
    ∧ (∀ st : Int, e.startTime = some st → 0 < e.totalSeconds →
        finalizeEpoch now e =
          (startNewEpoch now e.epochDuration,
           [StoreOp.saveActivityEpoch
              { timestamp := st
                activityScore :=
                  max 0 (min 100
                    ((jsActivityScore (min e.activeSeconds e.totalSeconds) e.totalSeconds : Nat) : Int))
                epochDuration := e.epochDuration
                isGap := false },
            StoreOp.saveCurrentEpoch (startNewEpoch now e.epochDuration)])
        ∧ (0 : Int) ≤
            max 0 (min 100
              ((jsActivityScore (min e.activeSeconds e.totalSeconds) e.totalSeconds : Nat) : Int))
        ∧ max 0 (min 100
              ((jsActivityScore (min e.activeSeconds e.totalSeconds) e.totalSeconds : Nat) : Int))
            ≤ 100)
    ∧ (startNewEpoch now e.epochDuration).activeSeconds = 0
    ∧ (startNewEpoch now e.epochDuration).totalSeconds = 0 := by
  refine ⟨?_, ?_, rfl, rfl⟩
  · intro h
    unfold finalizeEpoch
    rcases h with h | h
    · rw [h]
    · cases hs : e.startTime with
      | none => rfl
      | some st =>
          dsimp only
          rw [if_pos h]
  · intro st hst hpos
    refine ⟨?_, le_max_left _ _, max_le (by norm_num) (min_le_left _ _)⟩
    unfold finalizeEpoch
    rw [hst]
    dsimp only
    rw [if_neg (Nat.pos_iff_ne_zero.mp hpos)]

/-- Witness for `finalize_epoch_double_rounding` at a concrete accumulator
(600 active of 900 total seconds; the double computation scores it 67). -/
theorem finalize_epoch_double_rounding_witness :
    ((({ startTime := some 0, activeSeconds := 600, totalSeconds := 900,
         epochDuration := 15 } : EpochAccumulator).startTime = none ∨
       ({ startTime := some 0, activeSeconds := 600, totalSeconds := 900,
          epochDuration := 15 } : EpochAccumulator).totalSeconds = 0) →
      finalizeEpoch 900000
          { startTime := some 0, activeSeconds := 600, totalSeconds := 900, epochDuration := 15 } =
        (startNewEpoch 900000 15, [StoreOp.saveCurrentEpoch (startNewEpoch 900000 15)]))
    ∧ (∀ st : Int,
        ({ startTime := some 0, activeSeconds := 600, totalSeconds := 900,
           epochDuration := 15 } : EpochAccumulator).startTime = some st →
        0 < ({ startTime := some 0, activeSeconds := 600, totalSeconds := 900,
               epochDuration := 15 } : EpochAccumulator).totalSeconds →
        finalizeEpoch 900000
            { startTime := some 0, activeSeconds := 600, totalSeconds := 900, epochDuration := 15 } =
          (startNewEpoch 900000 15,
           [StoreOp.saveActivityEpoch
              { timestamp := st
                activityScore := max 0 (min 100 ((jsActivityScore (min 600 900) 900 : Nat) : Int))
                epochDuration := 15
                isGap := false },
            StoreOp.saveCurrentEpoch (startNewEpoch 900000 15)])
        ∧ (0 : Int) ≤ max 0 (min 100 ((jsActivityScore (min 600 900) 900 : Nat) : Int))
        ∧ max 0 (min 100 ((jsActivityScore (min 600 900) 900 : Nat) : Int)) ≤ 100)
    ∧ (startNewEpoch 900000 15).activeSeconds = 0
    ∧ (startNewEpoch 900000 15).totalSeconds = 0 :=
  finalize_epoch_double_rounding 900000
    { startTime := some 0, activeSeconds := 600, totalSeconds := 900, epochDuration := 15 }

/-! ## C9: worker health -/

/-- **C9.** For every liveness timestamp the engine can have written (a positive
`Date.now()` value), the health check returns `true` iff
`now - lastHeartbeat ≤ 180000`; and for every value of `now` and of the stored
timestamp whatsoever, a stale timestamp yields `false`. -/
theorem worker_health_spec :
    (∀ now t : Int, 0 < t →
      (checkWorkerHealth now (some t) = true ↔ now - t ≤ 180000))
    ∧ (∀ now t : Int, 180000 < now - t → checkWorkerHealth now (some t) = false)
    ∧ (∀ now : Int, checkWorkerHealth now none = false) := by
  refine ⟨?_, ?_, fun _ => rfl⟩
  · intro now t ht
    unfold checkWorkerHealth
    dsimp only
    by_cases h : now - t ≤ 180000
    · rw [if_pos ⟨ne_of_gt ht, h⟩]
      simp [h]
    · rw [if_neg fun hh => h hh.2]
      simp [h]
  · intro now t h
    unfold checkWorkerHealth
    dsimp only
    have hn : ¬(t ≠ 0 ∧ now - t ≤ 180000) := fun hh => absurd hh.2 (not_le.mpr h)
    rw [if_neg hn]

/-- Witness for `worker_health_spec`: fresh heartbeat is healthy, stale is not. -/
theorem worker_health_spec_witness :
    checkWorkerHealth 100000 (some 50000) = true
    ∧ checkWorkerHealth 400000 (some 1) = false :=
  ⟨(worker_health_spec.1 100000 50000 (by decide)).mpr (by decide),
   worker_health_spec.2.1 400000 1 (by decide)⟩

/-! ## C5 and C8: the initialization guard -/

/-- A call to `initialize` while a promise is in place (either the in-flight
attempt's or the settled one kept after success) changes nothing: the caller
just awaits the existing promise. -/
lemma initStep_call_of_hasPromise (s : InitState) (h : s.hasPromise = true) :
    initStep s InitEvent.call = s := by
  unfold initStep
  by_cases hi : s.isInitialized
  · rw [if_pos hi]
  · rw [if_neg hi, if_pos h]

/-- Repeated calls while a promise is in place change nothing. -/
lemma runInit_calls_of_hasPromise (k : Nat) (s : InitState) (h : s.hasPromise = true) :
    runInit s (List.replicate k InitEvent.call) = s := by
  induction k with
  | zero => rfl
  | succ n ih =>
      rw [List.replicate_succ]
      unfold runInit at *
      rw [List.foldl_cons, initStep_call_of_hasPromise s h, ih]

/-- **C5.** `initialize` is idempotent: a call on an already-initialized engine
is a no-op, and any number `n ≥ 1` of calls sharing one attempt, followed by
the attempt's successful completion and `m` further calls, yields exactly one
attempt (`restarts = 1`), exactly one restored/created accumulator, and exactly
one `activityHeartbeat` registration (re-creating the keyed alarm makes no
duplicate). -/
theorem initialize_idempotent (n m : Nat) (hn : 1 ≤ n) :
    (runInit freshInit
        (List.replicate n InitEvent.call ++ [InitEvent.succeed] ++
          List.replicate m InitEvent.call)).accumCreations = 1
    ∧ (runInit freshInit
        (List.replicate n InitEvent.call ++ [InitEvent.succeed] ++
          List.replicate m InitEvent.call)).restarts = 1
    ∧ (runInit freshInit
        (List.replicate n InitEvent.call ++ [InitEvent.succeed] ++
          List.replicate m InitEvent.call)).alarms.count "activityHeartbeat" = 1
    ∧ (runInit freshInit
        (List.replicate n InitEvent.call ++ [InitEvent.succeed] ++
          List.replicate m InitEvent.call)).isInitialized = true
    ∧ (∀ s : InitState, s.isInitialized = true → initStep s InitEvent.call = s) := by
  obtain ⟨k, rfl⟩ : ∃ k, n = k + 1 := ⟨n - 1, by omega⟩
  have h1 : runInit freshInit (List.replicate (k + 1) InitEvent.call) =
      initStep freshInit InitEvent.call := by
    rw [List.replicate_succ]
    unfold runInit
    rw [List.foldl_cons]
    exact runInit_calls_of_hasPromise k _ rfl
  have h2 : runInit freshInit
      (List.replicate (k + 1) InitEvent.call ++ [InitEvent.succeed] ++
        List.replicate m InitEvent.call) =
      initStep (initStep freshInit InitEvent.call) InitEvent.succeed := by
    unfold runInit at *
    rw [List.foldl_append, List.foldl_append, h1]
    exact runInit_calls_of_hasPromise m _ rfl
  rw [h2]
  refine ⟨rfl, rfl, rfl, rfl, ?_⟩
  intro s hs
  unfold initStep
  rw [if_pos hs]

/-- Witness for `initialize_idempotent` with three racing calls and two late
calls. -/
theorem initialize_idempotent_witness :
    1 ≤ 3
    ∧ ((runInit freshInit
          (List.replicate 3 InitEvent.call ++ [InitEvent.succeed] ++
            List.replicate 2 InitEvent.call)).accumCreations = 1
       ∧ (runInit freshInit
          (List.replicate 3 InitEvent.call ++ [InitEvent.succeed] ++
            List.replicate 2 InitEvent.call)).restarts = 1
       ∧ (runInit freshInit
          (List.replicate 3 InitEvent.call ++ [InitEvent.succeed] ++
            List.replicate 2 InitEvent.call)).alarms.count "activityHeartbeat" = 1
       ∧ (runInit freshInit
          (List.replicate 3 InitEvent.call ++ [InitEvent.succeed] ++
            List.replicate 2 InitEvent.call)).isInitialized = true
       ∧ (∀ s : InitState, s.isInitialized = true → initStep s InitEvent.call = s)) :=
  ⟨by decide, initialize_idempotent 3 2 (by decide)⟩

/-- **C8.** A failed initialization attempt resets every initialization flag to
its pre-attempt value (`isInitialized = false`, `isInitializing = false`,
promise cleared), so a later call can retry; and in every reachable state where
the engine is uninitialized with the in-flight marker still set, the attempt is
actually still running (`isInitializing = true`) and its failure handler will
clear the marker — no reachable state is permanently wedged. All callers that
joined the attempt hold the same promise (see `initStep_call_of_hasPromise`),
so the failure of that single promise reaches each of them. -/
theorem initialization_failure_reset :
    (∀ s : InitState, s.hasPromise = true → s.isInitialized = false →
      (initStep s InitEvent.fail).isInitialized = false
      ∧ (initStep s InitEvent.fail).isInitializing = false
      ∧ (initStep s InitEvent.fail).hasPromise = false)
    ∧ (∀ s : InitState, InitReachable s →
        s.isInitialized = false → s.hasPromise = true → s.isInitializing = true) := by
  constructor
  · intro s hp hi
    have hg : (s.hasPromise && !s.isInitialized) = true := by rw [hp, hi]; rfl
    simp only [initStep]
    rw [if_pos hg]
    exact ⟨rfl, rfl, rfl⟩
  · intro s hs
    induction hs with
    | start => intro _ h; exact absurd h (by decide)
    | step e hr ih =>
        rename_i s'
        cases e with
        | call =>
            simp only [initStep]
            by_cases hi : s'.isInitialized
            · rw [if_pos hi]; exact ih
            · rw [if_neg hi]
              by_cases hp : s'.hasPromise
              · rw [if_pos hp]; exact ih
              · rw [if_neg hp]
                intro _ _
                rfl
        | succeed =>
            simp only [initStep]
            by_cases hg : (s'.hasPromise && !s'.isInitialized) = true
            · rw [if_pos hg]
              intro h
              exact absurd h (by simp)
            · rw [if_neg hg]; exact ih
        | fail =>
            simp only [initStep]
            by_cases hg : (s'.hasPromise && !s'.isInitialized) = true
            · rw [if_pos hg]
              intro _ h
              exact absurd h (by simp)
            · rw [if_neg hg]; exact ih

/-- Witness for `initialization_failure_reset`: failing the single in-flight
attempt started by one call on a fresh worker restores the fresh flags, and
that in-flight state indeed carries `isInitializing = true`. -/
theorem initialization_failure_reset_witness :
    ((initStep (initStep freshInit InitEvent.call) InitEvent.fail).isInitialized = false
      ∧ (initStep (initStep freshInit InitEvent.call) InitEvent.fail).isInitializing = false
      ∧ (initStep (initStep freshInit InitEvent.call) InitEvent.fail).hasPromise = false)
    ∧ (initStep freshInit InitEvent.call).isInitializing = true :=
  ⟨initialization_failure_reset.1 (initStep freshInit InitEvent.call) rfl rfl,
   initialization_failure_reset.2 (initStep freshInit InitEvent.call)
     (InitReachable.step InitEvent.call InitReachable.start) rfl rfl⟩

/-! ## C2, C3, C6: the normal reconciliation path -/

/-- Unfolding of the accumulation step when the epoch is already started. -/
lemma accumulateStep_some (now st : Int) (s : EngineState)
    (hs : s.epoch.startTime = some st) :
    accumulateStep now s =
      { tracking := { s.tracking with lastCheckTime := now }
        epoch := { s.epoch with
            totalSeconds :=
              s.epoch.totalSeconds + timeDeltaSeconds now s.tracking.lastCheckTime
            activeSeconds :=
              if s.tracking.lastState = IdleState.active then
                if s.epoch.totalSeconds + timeDeltaSeconds now s.tracking.lastCheckTime <
                    s.epoch.activeSeconds + timeDeltaSeconds now s.tracking.lastCheckTime then
                  s.epoch.totalSeconds + timeDeltaSeconds now s.tracking.lastCheckTime
                else s.epoch.activeSeconds + timeDeltaSeconds now s.tracking.lastCheckTime
              else s.epoch.activeSeconds } } := by
  unfold accumulateStep
  rw [hs]

/-- The accumulation step preserves `activeSeconds ≤ totalSeconds`: the clamp
caps `activeSeconds` at `totalSeconds`, and an idle interval only grows
`totalSeconds`. -/
lemma accumulateStep_inv (now : Int) (s : EngineState)
    (h : s.epoch.activeSeconds ≤ s.epoch.totalSeconds) :
    (accumulateStep now s).epoch.activeSeconds ≤ (accumulateStep now s).epoch.totalSeconds := by
  unfold accumulateStep
  cases hs : s.epoch.startTime <;>
    simp only [hs, startNewEpoch] <;>
    split_ifs <;>
    omega

/-- The accumulation step does not change the epoch's start time (when one is
set) or its configured duration. -/
lemma accumulateStep_startTime (now st : Int) (s : EngineState)
    (hs : s.epoch.startTime = some st) :
    (accumulateStep now s).epoch.startTime = some st
    ∧ (accumulateStep now s).epoch.epochDuration = s.epoch.epochDuration := by
  rw [accumulateStep_some now st s hs]
  exact ⟨hs, rfl⟩

/-- The normal-path reconciliation either keeps the accumulated epoch or (on
finalization) replaces it by a fresh one. -/
lemma updateActivity_fst_cases (now : Int) (s : EngineState) :
    (updateActivity now s).1 = accumulateStep now s ∨
    (updateActivity now s).1 =
      { accumulateStep now s with
          epoch := startNewEpoch now (accumulateStep now s).epoch.epochDuration } := by
  unfold updateActivity
  cases hs : (accumulateStep now s).epoch.startTime with
  | none =>
      left
      simp only [hs]
  | some st =>
      simp only [hs]
      by_cases hfin : ((accumulateStep now s).epoch.epochDuration : Int) * 60000 ≤ now - st
      · right
        rw [if_pos hfin]
        simp only [finalizeEpoch_fst]
      · left
        rw [if_neg hfin]

/-- The normal-path reconciliation preserves `activeSeconds ≤ totalSeconds`. -/
lemma updateActivity_fst_inv (now : Int) (s : EngineState)
    (h : s.epoch.activeSeconds ≤ s.epoch.totalSeconds) :
    (updateActivity now s).1.epoch.activeSeconds ≤ (updateActivity now s).1.epoch.totalSeconds := by
  rcases updateActivity_fst_cases now s with hc | hc <;> rw [hc]
  · exact accumulateStep_inv now s h
  · exact Nat.le_refl 0

/-- The heartbeat handler's state carries the epoch computed by the gap-aware
update (the post-update `queryState` sync only touches the tracking state). -/
lemma checkIdleState_fst_epoch (now : Int) (s : EngineState) (fresh queried : IdleState) :
    (checkIdleState now s fresh queried).1.epoch =
      (updateActivityWithCheckpoint now s fresh).1.epoch := by
  unfold checkIdleState
  dsimp only
  split <;> rfl

/-- The state-change handler's state carries the epoch computed by the
gap-aware update (only `lastState` is switched afterwards). -/
lemma handleIdleStateChange_fst_epoch (now : Int) (s : EngineState) (fresh newState : IdleState) :
    (handleIdleStateChange now s fresh newState).1.epoch =
      (updateActivityWithCheckpoint now s fresh).1.epoch := rfl

/-- Any single reconciliation — gap or normal, tick or state change — preserves
`activeSeconds ≤ totalSeconds`. -/
lemma reconcile_fst_inv (s : EngineState) (t : Trigger)
    (h : s.epoch.activeSeconds ≤ s.epoch.totalSeconds) :
    (reconcile s t).1.epoch.activeSeconds ≤ (reconcile s t).1.epoch.totalSeconds := by
  have hcp : ∀ (now : Int) (fresh : IdleState),
      (updateActivityWithCheckpoint now s fresh).1.epoch.activeSeconds ≤
        (updateActivityWithCheckpoint now s fresh).1.epoch.totalSeconds := by
    intro now fresh
    unfold updateActivityWithCheckpoint
    dsimp only
    split_ifs with hgap
    · exact h
    · exact updateActivity_fst_inv now s h
  cases t with
  | tick now fresh queried =>
      simp only [reconcile]
      rw [checkIdleState_fst_epoch]
      exact hcp now fresh
  | stateChange now fresh newState =>
      simp only [reconcile]
      rw [handleIdleStateChange_fst_epoch]
      exact hcp now fresh

/-- **C2.** Over every sequence of reconciliations the accumulator invariant
`0 ≤ activeSeconds ≤ totalSeconds` is maintained (the lower bound holds by the
`Nat` representation; updates are clamped, never rejected — `reconcile` is a
total function). In particular it holds after every step of any sequence whose
elapsed intervals stay within the trusted-gap threshold, since every prefix of
such a run is itself such a sequence. -/
theorem accumulator_invariant (s : EngineState) (ts : List Trigger)
    (h : s.epoch.activeSeconds ≤ s.epoch.totalSeconds) :
    (runTriggers s ts).epoch.activeSeconds ≤ (runTriggers s ts).epoch.totalSeconds := by
  induction ts generalizing s with
  | nil => exact h
  | cons t rest ih =>
      unfold runTriggers at *
      rw [List.foldl_cons]
      exact ih (reconcile s t).1 (reconcile_fst_inv s t h)

/-- Witness for `accumulator_invariant`: a run with an active minute, an idle
state change and a five-minute gap. -/
theorem accumulator_invariant_witness :
    ({ tracking := { isTracking := true, lastCheckTime := 0, lastState := IdleState.active }
       epoch := { startTime := some 0, activeSeconds := 0, totalSeconds := 0,
                  epochDuration := 15 } } : EngineState).epoch.activeSeconds ≤
      ({ tracking := { isTracking := true, lastCheckTime := 0, lastState := IdleState.active }
         epoch := { startTime := some 0, activeSeconds := 0, totalSeconds := 0,
                    epochDuration := 15 } } : EngineState).epoch.totalSeconds
    ∧ (runTriggers
        { tracking := { isTracking := true, lastCheckTime := 0, lastState := IdleState.active }
          epoch := { startTime := some 0, activeSeconds := 0, totalSeconds := 0,
                     epochDuration := 15 } }
        [Trigger.tick 60000 IdleState.active IdleState.active,
         Trigger.stateChange 90000 IdleState.active IdleState.idle,
         Trigger.tick 400000 IdleState.idle IdleState.idle]).epoch.activeSeconds ≤
      (runTriggers
        { tracking := { isTracking := true, lastCheckTime := 0, lastState := IdleState.active }
          epoch := { startTime := some 0, activeSeconds := 0, totalSeconds := 0,
                     epochDuration := 15 } }
        [Trigger.tick 60000 IdleState.active IdleState.active,
         Trigger.stateChange 90000 IdleState.active IdleState.idle,
         Trigger.tick 400000 IdleState.idle IdleState.idle]).epoch.totalSeconds :=
  ⟨by decide,
   accumulator_invariant
     { tracking := { isTracking := true, lastCheckTime := 0, lastState := IdleState.active }
       epoch := { startTime := some 0, activeSeconds := 0, totalSeconds := 0,
                  epochDuration := 15 } }
     [Trigger.tick 60000 IdleState.active IdleState.active,
      Trigger.stateChange 90000 IdleState.active IdleState.idle,
      Trigger.tick 400000 IdleState.idle IdleState.idle]
     (by decide)⟩

/-- When the epoch has not yet reached its configured duration, the normal path
does not finalize: the resulting state is exactly the accumulated one. -/
lemma updateActivity_fst_of_not_final (now st : Int) (s : EngineState)
    (hs : s.epoch.startTime = some st)
    (hnofin : now - st < (s.epoch.epochDuration : Int) * 60000) :
    (updateActivity now s).1 = accumulateStep now s := by
  have h1 := (accumulateStep_startTime now st s hs).1
  have h2 := (accumulateStep_startTime now st s hs).2
  unfold updateActivity
  cases hz : (accumulateStep now s).epoch.startTime with
  | none => rw [hz] at h1; cases h1
  | some st2 =>
      rw [hz] at h1
      have hst2 : st2 = st := Option.some.inj h1
      subst hst2
      have hc : ¬ ((accumulateStep now s).epoch.epochDuration : Int) * 60000 ≤ now - st2 := by
        rw [h2]
        omega
      simp only [hz]
      rw [if_neg hc]

/-- **C3.** On the trusted normal path (with a started, not-yet-full epoch and a
well-formed accumulator): the step adds `delta = floor (elapsedMs / 1000)` to
`totalSeconds` (with negative elapsed time clamping `delta` to 0), adds `delta`
to `activeSeconds` exactly when the `lastState` recorded at the start of the
step was `active`, and — for a busy-state-change trigger — switches `lastState`
to the new state only after that accumulation, so the interval is attributed to
the old state. -/
theorem state_change_attribution (s : EngineState) (now st : Int)
    (fresh newState : IdleState)
    (hs : s.epoch.startTime = some st)
    (hinv : s.epoch.activeSeconds ≤ s.epoch.totalSeconds)
    (htrusted : now - s.tracking.lastCheckTime ≤ MAX_TRUSTED_GAP_MS)
    (hnofin : now - st < (s.epoch.epochDuration : Int) * 60000) :
    (handleIdleStateChange now s fresh newState).1.epoch.totalSeconds
        = s.epoch.totalSeconds + timeDeltaSeconds now s.tracking.lastCheckTime
    ∧ (handleIdleStateChange now s fresh newState).1.epoch.activeSeconds
        = s.epoch.activeSeconds +
            (if s.tracking.lastState = IdleState.active then
              timeDeltaSeconds now s.tracking.lastCheckTime
            else 0)
    ∧ (handleIdleStateChange now s fresh newState).1.tracking.lastState = newState
    ∧ (handleIdleStateChange now s fresh newState).1.tracking.lastCheckTime = now
    ∧ (now < s.tracking.lastCheckTime → timeDeltaSeconds now s.tracking.lastCheckTime = 0) := by
  have hgap : ¬ (MAX_TRUSTED_GAP_MS < now - s.tracking.lastCheckTime) := not_lt.mpr htrusted
  have hcp : updateActivityWithCheckpoint now s fresh = updateActivity now s := by
    unfold updateActivityWithCheckpoint
    dsimp only
    rw [if_neg hgap]
  have hupd : (updateActivity now s).1 = accumulateStep now s :=
    updateActivity_fst_of_not_final now st s hs hnofin
  have hacc := accumulateStep_some now st s hs
  have hepoch : (handleIdleStateChange now s fresh newState).1.epoch =
      (accumulateStep now s).epoch := by
    rw [handleIdleStateChange_fst_epoch, hcp, hupd]
  have htrack : (handleIdleStateChange now s fresh newState).1.tracking =
      { (updateActivityWithCheckpoint now s fresh).1.tracking with lastState := newState } := rfl
  refine ⟨?_, ?_, ?_, ?_, ?_⟩
  · rw [hepoch, hacc]
  · rw [hepoch, hacc]
    dsimp only
    by_cases ha : s.tracking.lastState = IdleState.active
    · have hni : ¬ (s.epoch.totalSeconds + timeDeltaSeconds now s.tracking.lastCheckTime <
          s.epoch.activeSeconds + timeDeltaSeconds now s.tracking.lastCheckTime) := by omega
      rw [if_pos ha, if_pos ha, if_neg hni]
    · rw [if_neg ha, if_neg ha]
      omega
  · rw [htrack]
  · have hck : (handleIdleStateChange now s fresh newState).1.tracking.lastCheckTime
        = (updateActivityWithCheckpoint now s fresh).1.tracking.lastCheckTime := rfl
    rw [hck, hcp, hupd, hacc]
  · intro hlt
    rw [timeDeltaSeconds_eq]
    omega

/-- Witness for `state_change_attribution`: one trusted minute of activity
followed by a change to idle is attributed to the old `active` state. -/
theorem state_change_attribution_witness :
    ({ tracking := { isTracking := true, lastCheckTime := 0, lastState := IdleState.active }
       epoch := { startTime := some 0, activeSeconds := 0, totalSeconds := 0,
                  epochDuration := 15 } } : EngineState).epoch.startTime = some 0
    ∧ (handleIdleStateChange 60000
        { tracking := { isTracking := true, lastCheckTime := 0, lastState := IdleState.active }
          epoch := { startTime := some 0, activeSeconds := 0, totalSeconds := 0,
                     epochDuration := 15 } }
        IdleState.active IdleState.idle).1.epoch.totalSeconds = 0 + timeDeltaSeconds 60000 0
    ∧ (handleIdleStateChange 60000
        { tracking := { isTracking := true, lastCheckTime := 0, lastState := IdleState.active }
          epoch := { startTime := some 0, activeSeconds := 0, totalSeconds := 0,
                     epochDuration := 15 } }
        IdleState.active IdleState.idle).1.epoch.activeSeconds
        = 0 + (if IdleState.active = IdleState.active then timeDeltaSeconds 60000 0 else 0)
    ∧ (handleIdleStateChange 60000
        { tracking := { isTracking := true, lastCheckTime := 0, lastState := IdleState.active }
          epoch := { startTime := some 0, activeSeconds := 0, totalSeconds := 0,
                     epochDuration := 15 } }
        IdleState.active IdleState.idle).1.tracking.lastState = IdleState.idle := by
  have h := state_change_attribution
    { tracking := { isTracking := true, lastCheckTime := 0, lastState := IdleState.active }
      epoch := { startTime := some 0, activeSeconds := 0, totalSeconds := 0, epochDuration := 15 } }
    60000 0 IdleState.active IdleState.idle rfl (by decide) (by decide) (by decide)
  exact ⟨rfl, h.1, h.2.1, h.2.2.1⟩

/-- The operations emitted by `finalizeEpoch`: either the reset alone (guarded
invalid/empty epoch) or one activity record followed by the reset. -/
lemma finalizeEpoch_ops_cases (now : Int) (e : EpochAccumulator) :
    (finalizeEpoch now e).2 = [StoreOp.saveCurrentEpoch (finalizeEpoch now e).1]
    ∨ ∃ f : FinalizedEpoch, (finalizeEpoch now e).2 =
        [StoreOp.saveActivityEpoch f, StoreOp.saveCurrentEpoch (finalizeEpoch now e).1] := by
  unfold finalizeEpoch
  cases e.startTime with
  | none => left; rfl
  | some st =>
      dsimp only
      split_ifs with h
      · left; rfl
      · right; exact ⟨_, rfl⟩

/-- **C6.** In the normal path, a tracking-state write is emitted only when 30+
seconds have elapsed since the last write (any `lastWrite ≤ lastCheckTime`), or
the updated `totalSeconds` is a multiple of 30, or the updated `activeSeconds`
is a multiple of 30; and every normal-path reconciliation that emits no
finalized record persists the resulting epoch accumulator. -/
theorem persistence_coalescing (now : Int) (s : EngineState) (lastWrite : Int)
    (hw : lastWrite ≤ s.tracking.lastCheckTime) :
    ((∃ t : TrackingState, StoreOp.saveTrackingState t ∈ (updateActivity now s).2) →
       30000 ≤ now - lastWrite
       ∨ (accumulateStep now s).epoch.totalSeconds % 30 = 0
       ∨ (accumulateStep now s).epoch.activeSeconds % 30 = 0)
    ∧ ((∀ f : FinalizedEpoch, StoreOp.saveActivityEpoch f ∉ (updateActivity now s).2) →
       StoreOp.saveCurrentEpoch (updateActivity now s).1.epoch ∈ (updateActivity now s).2) := by
  have hdelta : 30 ≤ timeDeltaSeconds now s.tracking.lastCheckTime → 30000 ≤ now - lastWrite := by
    rw [timeDeltaSeconds_eq]
    omega
  have hcond : (30 ≤ timeDeltaSeconds now s.tracking.lastCheckTime
      ∨ (accumulateStep now s).epoch.totalSeconds % 30 = 0
      ∨ (accumulateStep now s).epoch.activeSeconds % 30 = 0) →
      (30000 ≤ now - lastWrite
      ∨ (accumulateStep now s).epoch.totalSeconds % 30 = 0
      ∨ (accumulateStep now s).epoch.activeSeconds % 30 = 0) := by
    rintro (h | h | h)
    · exact Or.inl (hdelta h)
    · exact Or.inr (Or.inl h)
    · exact Or.inr (Or.inr h)
  have hmem : ∀ (t : TrackingState) (tail : List StoreOp),
      StoreOp.saveTrackingState t ∈
        (if (30 ≤ timeDeltaSeconds now s.tracking.lastCheckTime
            ∨ (accumulateStep now s).epoch.totalSeconds % 30 = 0
            ∨ (accumulateStep now s).epoch.activeSeconds % 30 = 0) then
          [StoreOp.saveTrackingState (accumulateStep now s).tracking]
        else []) ++ tail →
      (30 ≤ timeDeltaSeconds now s.tracking.lastCheckTime
        ∨ (accumulateStep now s).epoch.totalSeconds % 30 = 0
        ∨ (accumulateStep now s).epoch.activeSeconds % 30 = 0)
      ∨ StoreOp.saveTrackingState t ∈ tail := by
    intro t tail hm
    rw [List.mem_append] at hm
    rcases hm with hm | hm
    · split_ifs at hm with hC
      · exact Or.inl hC
      · cases hm
    · exact Or.inr hm
  unfold updateActivity
  cases hz : (accumulateStep now s).epoch.startTime with
  | none =>
      simp only [hz]
      refine ⟨?_, ?_⟩
      · rintro ⟨t, ht⟩
        rcases hmem t _ ht with hC | hm
        · exact hcond hC
        · simp at hm
      · intro _
        exact List.mem_append_right _ (List.mem_singleton.mpr rfl)
  | some st =>
      simp only [hz]
      by_cases hfin : ((accumulateStep now s).epoch.epochDuration : Int) * 60000 ≤ now - st
      · rw [if_pos hfin]
        refine ⟨?_, ?_⟩
        · rintro ⟨t, ht⟩
          rcases hmem t _ ht with hC | hm
          · exact hcond hC
          · exact absurd hm (saveTrackingState_not_mem_finalizeEpoch now _ t)
        · intro hf
          rcases finalizeEpoch_ops_cases now (accumulateStep now s).epoch with hops | ⟨f, hops⟩
          · rw [hops]
            exact List.mem_append_right _ (List.mem_singleton.mpr rfl)
          · exact absurd
              (by rw [hops]; exact List.mem_append_right _ (List.mem_cons_self _ _))
              (hf f)
      · rw [if_neg hfin]
        refine ⟨?_, ?_⟩
        · rintro ⟨t, ht⟩
          rcases hmem t _ ht with hC | hm
          · exact hcond hC
          · simp at hm
        · intro _
          exact List.mem_append_right _ (List.mem_singleton.mpr rfl)

/-- Witness for `persistence_coalescing`: a 40-second trusted interval. -/
theorem persistence_coalescing_witness :
    (0 : Int) ≤
      ({ tracking := { isTracking := true, lastCheckTime := 0, lastState := IdleState.active }
         epoch := { startTime := some 0, activeSeconds := 7, totalSeconds := 11,
                    epochDuration := 15 } } : EngineState).tracking.lastCheckTime
    ∧ (((∃ t : TrackingState, StoreOp.saveTrackingState t ∈
          (updateActivity 40000
            { tracking := { isTracking := true, lastCheckTime := 0, lastState := IdleState.active }
              epoch := { startTime := some 0, activeSeconds := 7, totalSeconds := 11,
                         epochDuration := 15 } }).2) →
        30000 ≤ (40000 : Int) - 0
        ∨ (accumulateStep 40000
            { tracking := { isTracking := true, lastCheckTime := 0, lastState := IdleState.active }
              epoch := { startTime := some 0, activeSeconds := 7, totalSeconds := 11,
                         epochDuration := 15 } }).epoch.totalSeconds % 30 = 0
        ∨ (accumulateStep 40000
            { tracking := { isTracking := true, lastCheckTime := 0, lastState := IdleState.active }
              epoch := { startTime := some 0, activeSeconds := 7, totalSeconds := 11,
                         epochDuration := 15 } }).epoch.activeSeconds % 30 = 0)
      ∧ ((∀ f : FinalizedEpoch, StoreOp.saveActivityEpoch f ∉
          (updateActivity 40000
            { tracking := { isTracking := true, lastCheckTime := 0, lastState := IdleState.active }
              epoch := { startTime := some 0, activeSeconds := 7, totalSeconds := 11,
                         epochDuration := 15 } }).2) →
        StoreOp.saveCurrentEpoch
          (updateActivity 40000
            { tracking := { isTracking := true, lastCheckTime := 0, lastState := IdleState.active }
              epoch := { startTime := some 0, activeSeconds := 7, totalSeconds := 11,
                         epochDuration := 15 } }).1.epoch ∈
          (updateActivity 40000
            { tracking := { isTracking := true, lastCheckTime := 0, lastState := IdleState.active }
              epoch := { startTime := some 0, activeSeconds := 7, totalSeconds := 11,
                         epochDuration := 15 } }).2)) :=
  ⟨by decide,
   persistence_coalescing 40000
     { tracking := { isTracking := true, lastCheckTime := 0, lastState := IdleState.active }
       epoch := { startTime := some 0, activeSeconds := 7, totalSeconds := 11,
                  epochDuration := 15 } } 0 (by decide)⟩

/-! ## C7: the 10-minutes-active / 5-quiet-minutes scenario -/

/-- Engine state at the opening of a fresh epoch at time 0, actively tracking. -/
def scenarioStart : EngineState :=
  { tracking := { isTracking := true, lastCheckTime := 0, lastState := IdleState.active }
    epoch := { startTime := some 0, activeSeconds := 0, totalSeconds := 0, epochDuration := 15 } }

/-- Ten one-minute heartbeat ticks with the busy state `active` throughout. -/
def activePhase : List Trigger :=
  [Trigger.tick 60000 IdleState.active IdleState.active,
   Trigger.tick 120000 IdleState.active IdleState.active,
   Trigger.tick 180000 IdleState.active IdleState.active,
   Trigger.tick 240000 IdleState.active IdleState.active,
   Trigger.tick 300000 IdleState.active IdleState.active,
   Trigger.tick 360000 IdleState.active IdleState.active,
   Trigger.tick 420000 IdleState.active IdleState.active,
   Trigger.tick 480000 IdleState.active IdleState.active,
   Trigger.tick 540000 IdleState.active IdleState.active,
   Trigger.tick 600000 IdleState.active IdleState.active]

/-- The claim's scenario read literally: after the change to idle at minute 10,
five minutes pass with no trigger and the next heartbeat fires at minute 15. -/
def claimedGapScenario : List Trigger :=
  activePhase ++
    [Trigger.stateChange 600000 IdleState.active IdleState.idle,
     Trigger.tick 900000 IdleState.idle IdleState.idle]

/-- Ten active minutes, the change to idle, then four more one-minute idle
ticks (minutes 11-14): everything up to the finalizing tick at minute 15. -/
def amendedPrefix : List Trigger :=
  activePhase ++
    [Trigger.stateChange 600000 IdleState.active IdleState.idle,
     Trigger.tick 660000 IdleState.idle IdleState.idle,
     Trigger.tick 720000 IdleState.idle IdleState.idle,
     Trigger.tick 780000 IdleState.idle IdleState.idle,
     Trigger.tick 840000 IdleState.idle IdleState.idle]

/-- The amended scenario: the five post-change minutes are delivered as five
one-minute heartbeat ticks, the last of which finalizes the epoch. -/
def amendedTickScenario : List Trigger :=
  amendedPrefix ++ [Trigger.tick 900000 IdleState.idle IdleState.idle]

/-- **C7 counterexample.** Running the claim's scenario as stated — five
trigger-free minutes between the idle change and the next heartbeat — the
5-minute elapsed interval exceeds `MAX_TRUSTED_GAP_MS` (120000 ms), so the
engine takes the gap path: the only record persisted is the `isGap` sentinel
(score `-1`, 5 minutes), no epoch with `activityScore = 67` is finalized, and
the accumulator still holds `activeSeconds = totalSeconds = 600`. -/
theorem scenario_quiet_five_minutes_counterexample :
    activityRecords (runCollect scenarioStart claimedGapScenario).2 =
      [{ timestamp := 600000, activityScore := -1, epochDuration := 5, isGap := true }]
    ∧ (runCollect scenarioStart claimedGapScenario).1.epoch.activeSeconds = 600
    ∧ (runCollect scenarioStart claimedGapScenario).1.epoch.totalSeconds = 600 :=
  ⟨rfl, rfl, rfl⟩

set_option maxRecDepth 100000 in
/-- **C7 (amended).** When the five post-change minutes arrive as one-minute
heartbeat ticks (each within the trusted-gap threshold), the epoch finalized at
minute 15 is built from `activeSeconds = 600` and `totalSeconds = 900`
(600 + 240 accumulated plus the last tick's 60-second delta) and is persisted
with `activityScore = 67 = round (600 / 900 * 100)`. -/
theorem scenario_state_change_amended :
    (runTriggers scenarioStart amendedPrefix).epoch.activeSeconds = 600
    ∧ (runTriggers scenarioStart amendedPrefix).epoch.totalSeconds = 840
    ∧ timeDeltaSeconds 900000
        (runTriggers scenarioStart amendedPrefix).tracking.lastCheckTime = 60
    ∧ (runTriggers scenarioStart amendedPrefix).epoch.totalSeconds
        + timeDeltaSeconds 900000
            (runTriggers scenarioStart amendedPrefix).tracking.lastCheckTime = 900
    ∧ jsRoundDiv (600 * 100) 900 = 67
    ∧ activityRecords (runCollect scenarioStart amendedTickScenario).2 =
        [{ timestamp := 0, activityScore := 67, epochDuration := 15, isGap := false }] :=
  ⟨rfl, rfl, rfl, rfl, rfl, rfl⟩

/-! ## C10: the data-import merge -/

/-- Replacement keeps the timestamp column unchanged: the substituted record
carries the very timestamp it replaces. -/
lemma replaceIfHigher_map_timestamp (m : List FinalizedEpoch) (e : FinalizedEpoch) :
    (replaceIfHigher m e).map (fun r => r.timestamp) = m.map (fun r => r.timestamp) := by
  induction m with
  | nil => rfl
  | cons x xs ih =>
      unfold replaceIfHigher
      split_ifs with h1 h2
      · simp [h1]
      · simp
      · simp [ih]

/-- A record whose timestamp differs from the imported one survives the
replacement step. -/
lemma replaceIfHigher_mem_of_ne (m : List FinalizedEpoch) (e x : FinalizedEpoch)
    (hx : x ∈ m) (hne : x.timestamp ≠ e.timestamp) : x ∈ replaceIfHigher m e := by
  induction m with
  | nil => cases hx
  | cons y ys ih =>
      unfold replaceIfHigher
      rcases List.mem_cons.mp hx with rfl | hx'
      · rw [if_neg hne]
        exact List.mem_cons_self _ _
      · split_ifs with h1
        · exact List.mem_cons_of_mem _ hx'
        · exact List.mem_cons_of_mem _ hx'
        · exact List.mem_cons_of_mem _ (ih hx')

/-- With duplicate-free timestamps, replacing at the (unique) matching record
keeps exactly the higher-scored of the two, the held record winning ties. -/
lemma replaceIfHigher_winner (m : List FinalizedEpoch) (e x : FinalizedEpoch)
    (hnd : (m.map (fun r => r.timestamp)).Nodup) (hx : x ∈ m)
    (hts : e.timestamp = x.timestamp) :
    (if x.activityScore < e.activityScore then e else x) ∈ replaceIfHigher m e := by
  induction m with
  | nil => cases hx
  | cons y ys ih =>
      rcases List.mem_cons.mp hx with rfl | hx'
      · unfold replaceIfHigher
        rw [if_pos hts.symm]
        exact List.mem_cons_self _ _
      · have hnd' : (∀ z ∈ ys, ¬ z.timestamp = y.timestamp)
            ∧ (ys.map (fun r => r.timestamp)).Nodup := by simpa using hnd
        have hy : ¬ y.timestamp = e.timestamp := fun hc =>
          hnd'.1 x hx' (hts.symm.trans hc.symm)
        unfold replaceIfHigher
        rw [if_neg hy]
        exact List.mem_cons_of_mem _ (ih hnd'.2 hx')

/-- A held record untouched by every remaining imported timestamp stays in the
merge result. -/
lemma mergeLoop_mem_preserved (ets : List Int) (imp : List FinalizedEpoch) :
    ∀ (merged : List FinalizedEpoch) (x : FinalizedEpoch),
      x ∈ merged → (∀ k ∈ imp, k.timestamp ≠ x.timestamp) →
      x ∈ mergeLoop merged ets imp := by
  induction imp with
  | nil => intro merged x hx _; exact hx
  | cons j rest ih =>
      intro merged x hx hk
      unfold mergeLoop
      have hjx : x.timestamp ≠ j.timestamp :=
        fun hc => hk j (List.mem_cons_self _ _) hc.symm
      split_ifs with h1
      · exact ih _ x (replaceIfHigher_mem_of_ne merged j x hx hjx)
          (fun k hk' => hk k (List.mem_cons_of_mem _ hk'))
      · exact ih _ x (List.mem_append_left _ hx)
          (fun k hk' => hk k (List.mem_cons_of_mem _ hk'))

/-- The timestamp column of the merge loop: the held timestamps followed, in
order, by the imported timestamps that are new relative to `ets`. -/
lemma mergeLoop_map_timestamp (ets : List Int) (imp : List FinalizedEpoch) :
    ∀ merged : List FinalizedEpoch,
      (mergeLoop merged ets imp).map (fun r => r.timestamp)
        = merged.map (fun r => r.timestamp)
          ++ (imp.filter (fun i => decide (i.timestamp ∉ ets))).map (fun r => r.timestamp) := by
  induction imp with
  | nil => intro merged; simp [mergeLoop]
  | cons e rest ih =>
      intro merged
      unfold mergeLoop
      split_ifs with h1
      · rw [ih, replaceIfHigher_map_timestamp]
        simp [List.filter_cons, h1]
      · rw [ih]
        simp [List.filter_cons, h1]

/-- The winning record for a timestamp present on both sides survives to the
end of the merge loop (inputs assumed duplicate-free). -/
lemma mergeLoop_winner (ets : List Int) (imp : List FinalizedEpoch) :
    ∀ (merged : List FinalizedEpoch) (x i : FinalizedEpoch),
      (merged.map (fun r => r.timestamp)).Nodup →
      (imp.map (fun r => r.timestamp)).Nodup →
      (∀ k ∈ imp, k.timestamp ∉ ets → k.timestamp ∉ merged.map (fun r => r.timestamp)) →
      x ∈ merged → i ∈ imp → i.timestamp = x.timestamp → x.timestamp ∈ ets →
      (if x.activityScore < i.activityScore then i else x) ∈ mergeLoop merged ets imp := by
  induction imp with
  | nil => intro merged x i _ _ _ _ hi _ _; cases hi
  | cons j rest ih =>
      intro merged x i hndm hndi hsub hx hi hts hets
      have hndi' : (∀ z ∈ rest, ¬ z.timestamp = j.timestamp)
          ∧ (rest.map (fun r => r.timestamp)).Nodup := by simpa using hndi
      rcases List.mem_cons.mp hi with rfl | hi'
      · have hiets : i.timestamp ∈ ets := by rw [hts]; exact hets
        unfold mergeLoop
        rw [if_pos hiets]
        apply mergeLoop_mem_preserved
        · exact replaceIfHigher_winner merged i x hndm hx hts
        · intro k hk
          have hki : ¬ k.timestamp = i.timestamp := hndi'.1 k hk
          by_cases hsc : x.activityScore < i.activityScore
          · rw [if_pos hsc]
            exact hki
          · rw [if_neg hsc]
            rw [← hts]
            exact hki
      · have hji : ¬ j.timestamp = i.timestamp := fun hc => hndi'.1 i hi' hc.symm
        have hjx : x.timestamp ≠ j.timestamp := fun hc => hji ((hts.trans hc).symm)
        unfold mergeLoop
        by_cases hjets : j.timestamp ∈ ets
        · rw [if_pos hjets]
          refine ih (replaceIfHigher merged j) x i ?_ hndi'.2 ?_ ?_ hi' hts hets
          · rw [replaceIfHigher_map_timestamp]
            exact hndm
          · intro k hk hknot
            rw [replaceIfHigher_map_timestamp]
            exact hsub k (List.mem_cons_of_mem _ hk) hknot
          · exact replaceIfHigher_mem_of_ne merged j x hx hjx
        · rw [if_neg hjets]
          refine ih (merged ++ [j]) x i ?_ hndi'.2 ?_ ?_ hi' hts hets
          · rw [List.map_append]
            refine List.Nodup.append hndm (by simp) ?_
            intro a ha hb
            simp only [List.map_cons, List.map_nil, List.mem_singleton] at hb
            subst hb
            exact hsub j (List.mem_cons_self _ _) hjets ha
          · intro k hk hknot
            rw [List.map_append, List.mem_append]
            rintro (hmem | hmem)
            · exact hsub k (List.mem_cons_of_mem _ hk) hknot hmem
            · simp only [List.map_cons, List.map_nil, List.mem_singleton] at hmem
              exact hndi'.1 k hk hmem
          · exact List.mem_append_left _ hx

/-- **C10 counterexample.** With `existing = []` and two imported records
sharing timestamp 1, the merge keeps both (the timestamp set is computed from
`existing` only and is never extended while pushing), so the result does not
have at most one record per timestamp. -/
theorem merge_duplicate_timestamps_counterexample :
    List.count (1 : Int)
      ((mergeActivityData []
        [{ timestamp := 1, activityScore := 5, epochDuration := 15, isGap := false },
         { timestamp := 1, activityScore := 6, epochDuration := 15, isGap := false }]).map
        (fun r => r.timestamp)) = 2 := by decide

/-- **C10 (amended).** For input lists whose timestamps are each internally
duplicate-free, the merge result has duplicate-free timestamps (at most one
record per timestamp), contains every timestamp of either input, keeps for a
timestamp present on both sides the record with the strictly higher
`activityScore` (the existing record winning ties), and is sorted by timestamp
in ascending order. -/
theorem merge_activity_data_amended (existing imported : List FinalizedEpoch)
    (hE : (existing.map (fun r => r.timestamp)).Nodup)
    (hI : (imported.map (fun r => r.timestamp)).Nodup) :
    ((mergeActivityData existing imported).map (fun r => r.timestamp)).Nodup
    ∧ (∀ t : Int,
        t ∈ existing.map (fun r => r.timestamp) ∨ t ∈ imported.map (fun r => r.timestamp) →
        t ∈ (mergeActivityData existing imported).map (fun r => r.timestamp))
    ∧ (∀ x ∈ existing, ∀ i ∈ imported, i.timestamp = x.timestamp →
        (if x.activityScore < i.activityScore then i else x) ∈ mergeActivityData existing imported)
    ∧ List.Sorted tsLE (mergeActivityData existing imported) := by
  have hperm : List.Perm (mergeActivityData existing imported)
      (mergeLoop existing (existing.map (fun r => r.timestamp)) imported) :=
    List.perm_insertionSort tsLE _
  have hpermts := hperm.map (fun r => r.timestamp)
  have hmap := mergeLoop_map_timestamp (existing.map (fun r => r.timestamp)) imported existing
  refine ⟨?_, ?_, ?_, List.sorted_insertionSort tsLE _⟩
  · rw [hpermts.nodup_iff, hmap]
    refine List.Nodup.append hE ?_ ?_
    · exact hI.sublist (List.Sublist.map _ (List.filter_sublist _))
    · intro a ha hb
      rcases List.mem_map.mp hb with ⟨i, hifil, hits⟩
      have := (List.mem_filter.mp hifil).2
      rw [decide_eq_true_eq] at this
      exact this (hits ▸ ha)
  · intro t ht
    rw [hpermts.mem_iff, hmap, List.mem_append]
    rcases ht with ht | ht
    · exact Or.inl ht
    · rcases List.mem_map.mp ht with ⟨i, hi, hits⟩
      by_cases hin : i.timestamp ∈ existing.map (fun r => r.timestamp)
      · exact Or.inl (hits ▸ hin)
      · refine Or.inr (List.mem_map.mpr ⟨i, ?_, hits⟩)
        exact List.mem_filter.mpr ⟨hi, by rw [decide_eq_true_eq]; exact hin⟩
  · intro x hx i hi hts
    rw [hperm.mem_iff]
    exact mergeLoop_winner (existing.map (fun r => r.timestamp)) imported existing x i
      hE hI (fun k _ hknot => hknot) hx hi hts (List.mem_map_of_mem _ hx)

/-- Witness for `merge_activity_data_amended` on small duplicate-free inputs:
one shared timestamp (import wins with the higher score) and one new one. -/
theorem merge_activity_data_amended_witness :
    (([{ timestamp := 1, activityScore := 10, epochDuration := 15, isGap := false }] :
        List FinalizedEpoch).map (fun r => r.timestamp)).Nodup
    ∧ (([{ timestamp := 1, activityScore := 20, epochDuration := 15, isGap := false },
         { timestamp := 2, activityScore := 5, epochDuration := 15, isGap := false }] :
        List FinalizedEpoch).map (fun r => r.timestamp)).Nodup
    ∧ (((mergeActivityData
          [{ timestamp := 1, activityScore := 10, epochDuration := 15, isGap := false }]
          [{ timestamp := 1, activityScore := 20, epochDuration := 15, isGap := false },
           { timestamp := 2, activityScore := 5, epochDuration := 15, isGap := false }]).map
          (fun r => r.timestamp)).Nodup
       ∧ (∀ t : Int,
           t ∈ ([{ timestamp := 1, activityScore := 10, epochDuration := 15, isGap := false }] :
                  List FinalizedEpoch).map (fun r => r.timestamp) ∨
           t ∈ ([{ timestamp := 1, activityScore := 20, epochDuration := 15, isGap := false },
                 { timestamp := 2, activityScore := 5, epochDuration := 15, isGap := false }] :
                  List FinalizedEpoch).map (fun r => r.timestamp) →
           t ∈ (mergeActivityData
                 [{ timestamp := 1, activityScore := 10, epochDuration := 15, isGap := false }]
                 [{ timestamp := 1, activityScore := 20, epochDuration := 15, isGap := false },
                  { timestamp := 2, activityScore := 5, epochDuration := 15, isGap := false }]).map
                 (fun r => r.timestamp))
       ∧ (∀ x ∈ ([{ timestamp := 1, activityScore := 10, epochDuration := 15, isGap := false }] :
                   List FinalizedEpoch),
           ∀ i ∈ ([{ timestamp := 1, activityScore := 20, epochDuration := 15, isGap := false },
                   { timestamp := 2, activityScore := 5, epochDuration := 15, isGap := false }] :
                   List FinalizedEpoch),
           i.timestamp = x.timestamp →
           (if x.activityScore < i.activityScore then i else x) ∈
             mergeActivityData
               [{ timestamp := 1, activityScore := 10, epochDuration := 15, isGap := false }]
               [{ timestamp := 1, activityScore := 20, epochDuration := 15, isGap := false },
                { timestamp := 2, activityScore := 5, epochDuration := 15, isGap := false }])
       ∧ List.Sorted tsLE
           (mergeActivityData
             [{ timestamp := 1, activityScore := 10, epochDuration := 15, isGap := false }]
             [{ timestamp := 1, activityScore := 20, epochDuration := 15, isGap := false },
              { timestamp := 2, activityScore := 5, epochDuration := 15, isGap := false }])) :=
  ⟨by decide, by decide,
   merge_activity_data_amended
     [{ timestamp := 1, activityScore := 10, epochDuration := 15, isGap := false }]
     [{ timestamp := 1, activityScore := 20, epochDuration := 15, isGap := false },
      { timestamp := 2, activityScore := 5, epochDuration := 15, isGap := false }]
     (by decide) (by decide)⟩

end Actogram
